import Mathlib

/-!
Verification development for the goquant trade-simulator core.

The estimator (`src/utils/tradingModels.ts`) is a set of pure functions over an
order-book snapshot and simulation parameters.  JavaScript numbers are modelled
as exact rationals; `Math.sqrt` and `Math.exp` are modelled as abstract
function parameters `jsqrt jexp : Rat -> Rat`, so every theorem proved for all
such parameters in particular holds for the real square root and exponential.
The ingestion hook (`src/hooks/useOrderbookData.ts`) is modelled as an explicit
state machine further below.
-/

namespace GoQuant

/-- Order-book snapshot as published by the hook and consumed by the
estimator (`OrderbookData` in `useOrderbookData.ts`): price/quantity level
lists plus a timestamp. -/
structure OrderbookData where
  bids : List (ℚ × ℚ)
  asks : List (ℚ × ℚ)
  timestamp : ℚ
deriving DecidableEq

/-- `SimulationParams` from `tradingModels.ts`. -/
structure SimulationParams where
  quantity : ℚ
  volatility : ℚ
  feeTier : String
deriving DecidableEq

/-- `TradingMetricsResult` from `tradingModels.ts`. -/
structure TradingMetricsResult where
  slippage : ℚ
  fees : ℚ
  marketImpact : ℚ
  netCost : ℚ
  makerProportion : ℚ
  takerProportion : ℚ
  baseAsset : String
  quoteAsset : String
  quantity : ℚ
deriving DecidableEq

/-- Side of a hypothetical market order (the `side` argument of
`calculateSlippage`). -/
inductive Side where
  | buy
  | sell
deriving DecidableEq

/-- `getFeeRate` from `tradingModels.ts`: switch on the tier string, default
to the tier-1 rate. -/
def getFeeRate (feeTier : String) : ℚ :=
  if feeTier = "tier1" then 1/1000
  else if feeTier = "tier2" then 8/10000
  else if feeTier = "tier3" then 6/10000
  else if feeTier = "tier4" then 4/10000
  else if feeTier = "tier5" then 2/10000
  else 1/1000

/-- Price of the first level of a side (`orders[0][0]`), with the JS
out-of-bounds access only ever taken under a non-emptiness guard. -/
def px0 (l : List (ℚ × ℚ)) : ℚ := (l.headD (0, 0)).1

/-- Quantity of the first level of a side (`orders[0][1]`). -/
def qty0 (l : List (ℚ × ℚ)) : ℚ := (l.headD (0, 0)).2

/-- Price of the last level of a side (`orders[orders.length - 1][0]`). -/
def lastPx (l : List (ℚ × ℚ)) : ℚ := (l.getLastD (0, 0)).1

/-- Total quantity available on a side of the book. -/
def qtySum (l : List (ℚ × ℚ)) : ℚ := (l.map Prod.snd).sum

/-- The mid-price expression of `calculateSlippage` (lines 50-55): average of
best bid and best ask when both sides are non-empty, otherwise the best price
of the side that will be walked. -/
def midPrice (ob : OrderbookData) (side : Side) : ℚ :=
  if ¬ob.bids.isEmpty ∧ ¬ob.asks.isEmpty then (px0 ob.bids + px0 ob.asks) / 2
  else
    match side with
    | .buy => px0 ob.asks
    | .sell => px0 ob.bids

/-- The side of the book walked by `calculateSlippage`: asks for a buy,
bids for a sell. -/
def sideOrders (ob : OrderbookData) : Side → List (ℚ × ℚ)
  | .buy => ob.asks
  | .sell => ob.bids

/-- The execution loop of `calculateSlippage` (lines 61-67): walk the levels,
consuming `min remaining available` at each price, stopping as soon as the
remaining quantity drops to zero.  Returns the accumulated cost and the
remaining unfilled quantity. -/
def walk : List (ℚ × ℚ) → ℚ → ℚ × ℚ
  | [], r => (0, r)
  | (p, a) :: t, r =>
    let e := min r a
    let r2 := r - e
    if r2 ≤ 0 then (e * p, r2)
    else
      let w := walk t r2
      (e * p + w.1, w.2)

/-- `calculateSlippage` from `tradingModels.ts`: walk the relevant side from
the best price, price any unfilled remainder at the last level price times
1.05, and report the non-negative deviation of the average execution price
from the mid-price. -/
def calculateSlippage (ob : OrderbookData) (quantity : ℚ) (side : Side) : ℚ :=
  let orders := sideOrders ob side
  if orders.isEmpty then 0
  else
    let mid := midPrice ob side
    let base := quantity / mid
    let w := walk orders base
    let totalCost := if 0 < w.2 then w.1 + w.2 * lastPx orders * (21/20) else w.1
    let avgExecutionPrice := totalCost / base
    let slippagePercent :=
      match side with
      | .buy => (avgExecutionPrice - mid) / mid
      | .sell => (mid - avgExecutionPrice) / mid
    max slippagePercent 0

/-- Guarded variant of `calculateSlippage` that mirrors the same arithmetic
but returns `none` whenever a division with zero denominator is reached
(where the JavaScript original silently produces NaN or Infinity). -/
def calculateSlippageChecked (ob : OrderbookData) (quantity : ℚ) (side : Side) :
    Option ℚ :=
  let orders := sideOrders ob side
  if orders.isEmpty then some 0
  else
    let mid := midPrice ob side
    if mid = 0 then none
    else
      let base := quantity / mid
      let w := walk orders base
      let totalCost := if 0 < w.2 then w.1 + w.2 * lastPx orders * (21/20) else w.1
      if base = 0 then none
      else
        let avgExecutionPrice := totalCost / base
        let slippagePercent :=
          match side with
          | .buy => (avgExecutionPrice - mid) / mid
          | .sell => (mid - avgExecutionPrice) / mid
        some (max slippagePercent 0)

/-- `calculateMarketImpact` from `tradingModels.ts`: simplified Almgren-Chriss
temporary impact, clamped to `[0.0001, 0.05]`; zero when either side of the
book is empty.  `jsqrt` abstracts `Math.sqrt`. -/
def calculateMarketImpact (jsqrt : ℚ → ℚ) (ob : OrderbookData)
    (quantity volatility : ℚ) : ℚ :=
  if ob.bids.isEmpty ∨ ob.asks.isEmpty then 0
  else
    let mid := (px0 ob.bids + px0 ob.asks) / 2
    let spread := px0 ob.asks - px0 ob.bids
    let normalizedSpread := spread / mid
    let depthThreshold := mid * (1/100)
    let bidDepth := (((ob.bids.filter fun l => mid - l.1 ≤ depthThreshold).map Prod.snd)).sum
    let askDepth := (((ob.asks.filter fun l => l.1 - mid ≤ depthThreshold).map Prod.snd)).sum
    let totalDepth := bidDepth + askDepth
    let baseQuantity := quantity / mid
    let normalizedQuantity := if 0 < totalDepth then baseQuantity / totalDepth else 0
    let volatilityFactor := volatility / 1000
    let impactFactor := jsqrt (normalizedSpread * volatilityFactor)
    let marketImpact := impactFactor * normalizedQuantity * jsqrt normalizedQuantity
    min (max marketImpact (1/10000)) (1/20)

/-- The depth sub-expression of `calculateMarketImpact` (lines 98-107): sum of
bid quantities within 1% of mid plus sum of ask quantities within 1% of mid. -/
def impactDepth (ob : OrderbookData) : ℚ :=
  let mid := (px0 ob.bids + px0 ob.asks) / 2
  let depthThreshold := mid * (1/100)
  (((ob.bids.filter fun l => mid - l.1 ≤ depthThreshold).map Prod.snd)).sum +
    (((ob.asks.filter fun l => l.1 - mid ≤ depthThreshold).map Prod.snd)).sum

/-- The `normalizedQuantity` sub-expression of `calculateMarketImpact`
(lines 110-111): base quantity over depth, 0 when the depth is not
positive. -/
def impactNQ (ob : OrderbookData) (quantity : ℚ) : ℚ :=
  let mid := (px0 ob.bids + px0 ob.asks) / 2
  if 0 < impactDepth ob then quantity / mid / impactDepth ob else 0

/-- The argument `normalizedSpread * volatilityFactor` passed to `Math.sqrt`
in `calculateMarketImpact` (lines 95, 114, 117). -/
def impactSpreadVol (ob : OrderbookData) (volatility : ℚ) : ℚ :=
  (px0 ob.asks - px0 ob.bids) / ((px0 ob.bids + px0 ob.asks) / 2) *
    (volatility / 1000)

/-- NaN-tracking mirror of `calculateMarketImpact`: returns `none` when the
JavaScript original produces NaN — a division by a zero mid-price, or
`Math.sqrt` applied to a negative argument (crossed book or negative
volatility makes `normalizedSpread * volatilityFactor` negative; negative
quantity makes `normalizedQuantity` negative); a NaN propagates through
`Math.min`/`Math.max` and escapes the clamp.  On all other inputs it returns
`some` of the clamped value computed by `calculateMarketImpact`. -/
def calculateMarketImpactChecked (jsqrt : ℚ → ℚ) (ob : OrderbookData)
    (quantity volatility : ℚ) : Option ℚ :=
  if ob.bids.isEmpty ∨ ob.asks.isEmpty then some 0
  else
    let mid := (px0 ob.bids + px0 ob.asks) / 2
    if mid = 0 then none
    else if impactSpreadVol ob volatility < 0 then none
    else if impactNQ ob quantity < 0 then none
    else
      some (min (max (jsqrt (impactSpreadVol ob volatility) *
        impactNQ ob quantity * jsqrt (impactNQ ob quantity)) (1/10000)) (1/20))

/-- `calculateMakerTakerProportion` from `tradingModels.ts`: logistic split,
0.5/0.5 when either side of the book is empty.  `jexp` abstracts
`Math.exp`. -/
def calculateMakerTakerProportion (jexp : ℚ → ℚ) (ob : OrderbookData)
    (volatility : ℚ) : ℚ × ℚ :=
  if ob.bids.isEmpty ∨ ob.asks.isEmpty then (1/2, 1/2)
  else
    let mid := (px0 ob.bids + px0 ob.asks) / 2
    let spread := px0 ob.asks - px0 ob.bids
    let normalizedSpread := spread / mid
    let volatilityFactor := volatility / 100
    let spreadFactor := min (normalizedSpread * 100) 1
    let z := 3/2 - 2 * volatilityFactor + spreadFactor
    let makerProportion := 1 / (1 + jexp (-z))
    (makerProportion, 1 - makerProportion)

/-- `calculateTradingMetrics` from `tradingModels.ts`: round-trip average
slippage, flat tier fee, clamped market impact, their sum as net cost, and
the maker/taker split. -/
def calculateTradingMetrics (jsqrt jexp : ℚ → ℚ) (ob : OrderbookData)
    (params : SimulationParams) : TradingMetricsResult :=
  let buySlippage := calculateSlippage ob params.quantity .buy
  let sellSlippage := calculateSlippage ob params.quantity .sell
  let slippage := (buySlippage + sellSlippage) / 2
  let feeRate := getFeeRate params.feeTier
  let fees := feeRate
  let marketImpact := calculateMarketImpact jsqrt ob params.quantity params.volatility
  let netCost := slippage + fees + marketImpact
  let mt := calculateMakerTakerProportion jexp ob params.volatility
  { slippage := slippage
    fees := fees
    marketImpact := marketImpact
    netCost := netCost
    makerProportion := mt.1
    takerProportion := mt.2
    baseAsset := "BTC"
    quoteAsset := "USDT"
    quantity := params.quantity }

/-- The book of spec Scenario A. -/
def scenarioABook : OrderbookData :=
  { bids := [(19500, 5/2), (19450, 16/5)]
    asks := [(19550, 19/10), (19600, 14/5)]
    timestamp := 0 }

/-- A raw price or quantity value arriving in a WebSocket message: either a
numeric string (which `parseFloat` turns into the number it denotes) or a
non-numeric string (which `parseFloat` turns into NaN). -/
inductive RawVal where
  | num (q : ℚ)
  | bad
deriving DecidableEq

/-- A JavaScript number that may be NaN: `none` models NaN, `some q` models
the finite value `q`. -/
abbrev JNum := Option ℚ

/-- A published order-book level after `parseFloat` conversion. -/
abbrev JEntry := JNum × JNum

/-- `parseFloat` on a raw value: a numeric string yields its value, a
non-numeric string yields NaN (`none`). -/
def parseF : RawVal → JNum
  | .num q => some q
  | .bad => none

/-- The string-to-number conversion step of `processWebSocketMessage`
(`message.data.bids.map(([price, quantity]) => [parseFloat(price),
parseFloat(quantity)])`). -/
def parseEntries (l : List (RawVal × RawVal)) : List JEntry :=
  l.map fun e => (parseF e.1, parseF e.2)

/-- JavaScript comparator test for the bid sort `(a, b) => b[0] - a[0]`:
`jltBid z x` holds when the comparator says `z` comes strictly before `x`
(higher price first); a NaN price compares as equal, per the ECMAScript rule
that a NaN comparator result is treated as 0. -/
def jltBid (z x : JEntry) : Bool :=
  match z.1, x.1 with
  | some zp, some xp => decide (xp < zp)
  | _, _ => false

/-- JavaScript comparator test for the ask sort `(a, b) => a[0] - b[0]`:
`jltAsk z x` holds when `z` comes strictly before `x` (lower price first). -/
def jltAsk (z x : JEntry) : Bool :=
  match z.1, x.1 with
  | some zp, some xp => decide (zp < xp)
  | _, _ => false

/-- Stable insertion of an element into an already sorted list: the new
element is placed after every element it does not strictly precede.  Together
with the left-to-right fold below this realizes the ECMAScript guarantee that
`Array.prototype.sort` is stable. -/
def insertJ (jlt : JEntry → JEntry → Bool) (z : JEntry) :
    List JEntry → List JEntry
  | [] => [z]
  | x :: t => if jlt z x then z :: x :: t else x :: insertJ jlt z t

/-- Stable sort of the published levels by a JavaScript comparator. -/
def sortJ (jlt : JEntry → JEntry → Bool) (l : List JEntry) : List JEntry :=
  l.foldl (fun acc z => insertJ jlt z acc) []

/-- The numeric view of the stable insertion used for well-formed (NaN-free)
input, descending by price for bids. -/
def insertQD (z : ℚ × ℚ) : List (ℚ × ℚ) → List (ℚ × ℚ)
  | [] => [z]
  | x :: t => if x.1 < z.1 then z :: x :: t else x :: insertQD z t

/-- Stable descending-by-price sort on numeric levels (bid side view). -/
def sortQD (l : List (ℚ × ℚ)) : List (ℚ × ℚ) :=
  l.foldl (fun acc z => insertQD z acc) []

/-- The numeric view of the stable insertion, ascending by price for asks. -/
def insertQA (z : ℚ × ℚ) : List (ℚ × ℚ) → List (ℚ × ℚ)
  | [] => [z]
  | x :: t => if z.1 < x.1 then z :: x :: t else x :: insertQA z t

/-- Stable ascending-by-price sort on numeric levels (ask side view). -/
def sortQA (l : List (ℚ × ℚ)) : List (ℚ × ℚ) :=
  l.foldl (fun acc z => insertQA z acc) []

/-- A well-formed raw level: both strings numeric. -/
def rawEntry (e : ℚ × ℚ) : RawVal × RawVal := (.num e.1, .num e.2)

/-- The injection of a numeric level into published-level form. -/
def injEntry (e : ℚ × ℚ) : JEntry := (some e.1, some e.2)

/-- An inbound WebSocket message after JSON parsing (`WebSocketMessage` in
`useOrderbookData.ts`): a type tag plus raw bid/ask levels and a timestamp. -/
structure WSMessage where
  mtype : String
  bids : List (RawVal × RawVal)
  asks : List (RawVal × RawVal)
  timestamp : ℚ
deriving DecidableEq

/-- The order book held in the hook state (`OrderbookData` as the hook
publishes it), with possibly-NaN entries. -/
structure JBook where
  bids : List JEntry
  asks : List JEntry
  timestamp : ℚ
deriving DecidableEq

/-- The observable hook state: the published snapshot, the last-error field,
and a ghost counter of how many times a non-null error was set (the claim's
"error indicator increments"). -/
structure HookState where
  book : JBook
  lastError : Option String
  errorSets : Nat
deriving DecidableEq

/-- `processWebSocketMessage` from `useOrderbookData.ts`: on a `snapshot` or
`update` message, parse every level with `parseFloat` (no NaN check), sort
bids descending and asks ascending with the stable array sort, and publish
the new book, defaulting a falsy (zero) timestamp to the current time; any
other message type changes nothing.  The error field is not touched on this
path. -/
def processWebSocketMessage (now : ℚ) (s : HookState) (m : WSMessage) :
    HookState :=
  if m.mtype = "snapshot" ∨ m.mtype = "update" then
    { s with
        book :=
          { bids := sortJ jltBid (parseEntries m.bids)
            asks := sortJ jltAsk (parseEntries m.asks)
            timestamp := if m.timestamp = 0 then now else m.timestamp } }
  else s

/-- What `ws.onmessage` receives: either data that fails `JSON.parse` (the
only case the `try`/`catch` protects against) or a parsed message. -/
inductive InboundEvent where
  | badJson
  | msg (m : WSMessage)

/-- The `ws.onmessage` handler: invalid JSON is caught and sets the error
field (counted by the ghost `errorSets`); a parsed message goes to
`processWebSocketMessage` untouched by any value-level validation. -/
def onMessage (now : ℚ) (s : HookState) : InboundEvent → HookState
  | .badJson =>
    { s with
        lastError := some "Failed to parse WebSocket message"
        errorSets := s.errorSets + 1 }
  | .msg m => processWebSocketMessage now s m

/-- The hook's initial state: empty book, no error (initial timestamp taken
as 0). -/
def initialHookState : HookState := ⟨⟨[], [], 0⟩, none, 0⟩

/-- The malformed tick of Scenario C: valid JSON, type `snapshot`, one bid
level whose price string is non-numeric. -/
def malformedTickMsg : WSMessage := ⟨"snapshot", [(.bad, .num 1)], [], 5⟩

/-- A well-formed message carrying two bid levels with the same price 100. -/
def duplicatePriceMsg : WSMessage :=
  ⟨"snapshot", [(.num 100, .num 1), (.num 100, .num 2)], [], 5⟩

/-- Connection status exposed by the hook
(`connecting`/`connected`/`disconnected`). -/
inductive ConnStatus where
  | connecting
  | connected
  | disconnected
deriving DecidableEq

/-- State of the connection logic of `connectWebSocket`: the exposed status,
whether the current socket's `readyState` is `CLOSED`, the fire time of the
pending reconnect timer (if any), and a ghost record of the time of the most
recent close event.  Time is in milliseconds, as in `setTimeout(..., 5000)`. -/
structure WSState where
  status : ConnStatus
  sockClosed : Bool
  timer : Option ℚ
  lastClose : Option ℚ
deriving DecidableEq

/-- The callback events driving the connection logic. -/
inductive WSEvent where
  | opened
  | errored
  | closed
  | timerFired
deriving DecidableEq

/-- The state right after `connectWebSocket()` runs at startup: status
`connecting`, a fresh non-closed socket, no pending timer, no close seen. -/
def wsInit : WSState := ⟨.connecting, false, none, none⟩

/-- One labelled, timed transition of the connection logic, one constructor
per callback of `connectWebSocket`: `ws.onopen` sets `connected`;
`ws.onerror` sets `disconnected`; `ws.onclose` at time `t` sets
`disconnected`, marks the socket CLOSED and schedules the reconnect timer at
`t + 5000`; the firing timer calls `connectWebSocket` (status `connecting`,
fresh socket) only when `wsRef.current.readyState === WebSocket.CLOSED`,
otherwise it does nothing beyond expiring. -/
inductive WSStep : WSState → WSEvent → ℚ → WSState → Prop where
  | opened (s : WSState) (t : ℚ) (h : s.sockClosed = false) :
      WSStep s .opened t ⟨.connected, s.sockClosed, s.timer, s.lastClose⟩
  | errored (s : WSState) (t : ℚ) (h : s.sockClosed = false) :
      WSStep s .errored t ⟨.disconnected, s.sockClosed, s.timer, s.lastClose⟩
  | closed (s : WSState) (t : ℚ) (h : s.sockClosed = false) :
      WSStep s .closed t ⟨.disconnected, true, some (t + 5000), some t⟩
  | fired (s : WSState) (t : ℚ) (h : s.timer = some t) (hc : s.sockClosed = true) :
      WSStep s .timerFired t ⟨.connecting, false, none, s.lastClose⟩
  | firedSkip (s : WSState) (t : ℚ) (h : s.timer = some t)
      (hc : s.sockClosed = false) :
      WSStep s .timerFired t ⟨s.status, s.sockClosed, none, s.lastClose⟩

/-- Connection states reachable from the startup state. -/
inductive WSReach : WSState → Prop where
  | init : WSReach wsInit
  | step {s : WSState} {e : WSEvent} {t : ℚ} {s2 : WSState} :
      WSReach s → WSStep s e t s2 → WSReach s2

theorem headD_mem (l : List (ℚ × ℚ)) (d : ℚ × ℚ) (h : l ≠ []) : l.headD d ∈ l := by
  cases l with
  | nil => exact absurd rfl h
  | cons x t => simp

theorem getLastD_mem : ∀ (l : List (ℚ × ℚ)) (d : ℚ × ℚ), l ≠ [] → l.getLastD d ∈ l := by
  intro l
  induction l with
  | nil => exact fun d h => absurd rfl h
  | cons x t ih =>
    intro d _
    cases t with
    | nil => simp [List.getLastD]
    | cons y s =>
      have hm := ih x (by simp)
      rw [List.getLastD_cons]
      exact List.mem_cons_of_mem x hm

theorem qtySum_nonneg (l : List (ℚ × ℚ)) (hq : ∀ p ∈ l, 0 ≤ p.2) : 0 ≤ qtySum l := by
  unfold qtySum
  apply List.sum_nonneg
  intro x hx
  obtain ⟨p, hp, rfl⟩ := List.mem_map.mp hx
  exact hq p hp

theorem qtySum_cons (x : ℚ × ℚ) (t : List (ℚ × ℚ)) :
    qtySum (x :: t) = x.2 + qtySum t := by
  simp [qtySum]

theorem walk_cons (p a : ℚ) (t : List (ℚ × ℚ)) (r : ℚ) :
    walk ((p, a) :: t) r =
      if r - min r a ≤ 0 then (min r a * p, r - min r a)
      else (min r a * p + (walk t (r - min r a)).1, (walk t (r - min r a)).2) := rfl

/-- The execution loop leaves at least the requested quantity minus the total
side depth unfilled. -/
theorem walk_rem_ge : ∀ (l : List (ℚ × ℚ)) (r : ℚ), (∀ p ∈ l, 0 ≤ p.2) →
    r - qtySum l ≤ (walk l r).2 := by
  intro l
  induction l with
  | nil => intro r _; simp [walk, qtySum]
  | cons x t ih =>
    intro r hq
    obtain ⟨p, a⟩ := x
    have hqt : ∀ q ∈ t, 0 ≤ q.2 := fun q hm => hq q (List.mem_cons_of_mem _ hm)
    have hst : 0 ≤ qtySum t := qtySum_nonneg t hqt
    have hme : min r a ≤ a := min_le_right r a
    rw [walk_cons, qtySum_cons]
    by_cases hbr : r - min r a ≤ 0
    · rw [if_pos hbr]
      simp only
      linarith
    · rw [if_neg hbr]
      have h2 := ih (r - min r a) hqt
      simp only
      linarith

/-- The unfilled remainder of the execution loop stays between zero and the
requested quantity. -/
theorem walk_rem_bounds : ∀ (l : List (ℚ × ℚ)) (r : ℚ), (∀ p ∈ l, 0 ≤ p.2) →
    0 ≤ r → 0 ≤ (walk l r).2 ∧ (walk l r).2 ≤ r := by
  intro l
  induction l with
  | nil => intro r _ hr; simp [walk]; exact hr
  | cons x t ih =>
    intro r hq hr
    obtain ⟨p, a⟩ := x
    have ha : 0 ≤ a := hq (p, a) (List.mem_cons_self _ _)
    have hqt : ∀ q ∈ t, 0 ≤ q.2 := fun q hm => hq q (List.mem_cons_of_mem _ hm)
    have he0 : 0 ≤ min r a := le_min hr ha
    have her : min r a ≤ r := min_le_left r a
    rw [walk_cons]
    by_cases hbr : r - min r a ≤ 0
    · rw [if_pos hbr]
      constructor
      · simp only
        linarith
      · simp only
        linarith
    · rw [if_neg hbr]
      have h2 := ih (r - min r a) hqt (by linarith)
      constructor
      · simp only
        linarith [h2.1]
      · simp only
        linarith [h2.2]

/-- The accumulated cost of the execution loop is at least the consumed
quantity priced at any lower bound of the level prices. -/
theorem walk_cost_ge : ∀ (l : List (ℚ × ℚ)) (r c : ℚ), (∀ p ∈ l, c ≤ p.1) →
    (∀ p ∈ l, 0 ≤ p.2) → 0 ≤ r → 0 ≤ c →
    c * (r - (walk l r).2) ≤ (walk l r).1 := by
  intro l
  induction l with
  | nil => intro r c _ _ _ _; simp [walk]
  | cons x t ih =>
    intro r c hp hq hr hc
    obtain ⟨p, a⟩ := x
    have hcp : c ≤ p := hp (p, a) (List.mem_cons_self _ _)
    have ha : 0 ≤ a := hq (p, a) (List.mem_cons_self _ _)
    have hpt : ∀ q ∈ t, c ≤ q.1 := fun q hm => hp q (List.mem_cons_of_mem _ hm)
    have hqt : ∀ q ∈ t, 0 ≤ q.2 := fun q hm => hq q (List.mem_cons_of_mem _ hm)
    have he0 : 0 ≤ min r a := le_min hr ha
    have hmul : min r a * c ≤ min r a * p := mul_le_mul_of_nonneg_left hcp he0
    rw [walk_cons]
    by_cases hbr : r - min r a ≤ 0
    · rw [if_pos hbr]
      simp only
      nlinarith
    · rw [if_neg hbr]
      have h2 := ih (r - min r a) c hpt hqt (by linarith) hc
      simp only
      nlinarith

/-- Characterization of `calculateSlippage` on a buy with a non-empty ask
side, with the walk, penalty branch and average-price division exposed. -/
theorem calculateSlippage_buy_eq (ob : OrderbookData) (q : ℚ) (h : ob.asks ≠ []) :
    calculateSlippage ob q .buy =
      max (((if 0 < (walk ob.asks (q / midPrice ob .buy)).2
              then (walk ob.asks (q / midPrice ob .buy)).1 +
                  (walk ob.asks (q / midPrice ob .buy)).2 * lastPx ob.asks * (21/20)
              else (walk ob.asks (q / midPrice ob .buy)).1) / (q / midPrice ob .buy)
            - midPrice ob .buy) / midPrice ob .buy) 0 := by
  unfold calculateSlippage
  have hempty : ¬ob.asks.isEmpty := by
    simpa [List.isEmpty_iff] using h
  simp [sideOrders, hempty]

end GoQuant

namespace GoQuant

/-- C3 (amended): consider a snapshot with positive level prices, non-negative
ask quantities, a non-empty ask side whose first price is minimal on the side,
and a best bid (when bids exist) not exceeding the best ask.  On the buy side,
a quantity whose base-asset equivalent strictly exceeds the total ask depth
leaves a positive unfilled remainder (the 5%-penalty fallback fires), and its
reported slippage is strictly higher than that of any positive quantity that
fills entirely within the top ask level. -/
theorem penalty_slippage_buy (ob : OrderbookData) (qB qS : ℚ)
    (ha : ob.asks ≠ [])
    (hposA : ∀ l ∈ ob.asks, 0 < l.1)
    (hposB : ∀ l ∈ ob.bids, 0 < l.1)
    (hqtyA : ∀ l ∈ ob.asks, 0 ≤ l.2)
    (hfirst : ∀ l ∈ ob.asks, px0 ob.asks ≤ l.1)
    (huncross : ob.bids ≠ [] → px0 ob.bids ≤ px0 ob.asks)
    (hbig : qtySum ob.asks < qB / midPrice ob .buy)
    (hqS : 0 < qS)
    (hsmall : qS / midPrice ob .buy ≤ qty0 ob.asks) :
    0 < (walk ob.asks (qB / midPrice ob .buy)).2 ∧
      calculateSlippage ob qS .buy < calculateSlippage ob qB .buy := by
  obtain ⟨⟨a1, aq1⟩, arest, heq⟩ := List.exists_cons_of_ne_nil ha
  have hpx : px0 ob.asks = a1 := by rw [heq]; rfl
  have hqty0 : qty0 ob.asks = aq1 := by rw [heq]; rfl
  have ha1pos : 0 < a1 := by
    have := hposA (a1, aq1) (by rw [heq]; exact List.mem_cons_self _ _)
    simpa using this
  have haE : ¬ob.asks.isEmpty := by simpa [List.isEmpty_iff] using ha
  -- the mid-price is positive and does not exceed the best ask
  have hmid : 0 < midPrice ob .buy ∧ midPrice ob .buy ≤ a1 := by
    unfold midPrice
    by_cases hb : ob.bids.isEmpty
    · rw [if_neg (by simp [hb])]
      rw [hpx]
      exact ⟨ha1pos, le_refl a1⟩
    · rw [if_pos ⟨hb, haE⟩]
      have hbne : ob.bids ≠ [] := by simpa [List.isEmpty_iff] using hb
      have hb1pos : 0 < px0 ob.bids :=
        hposB (ob.bids.headD (0, 0)) (headD_mem ob.bids (0, 0) hbne)
      have hble := huncross hbne
      rw [hpx] at hble ⊢
      constructor
      · linarith
      · linarith
  obtain ⟨hm0, hma⟩ := hmid
  set m := midPrice ob .buy with hmdef
  have hqsum0 : 0 ≤ qtySum ob.asks := qtySum_nonneg ob.asks hqtyA
  have hbaseB : 0 < qB / m := lt_of_le_of_lt hqsum0 hbig
  -- the big order leaves a positive unfilled remainder
  have hrem_lb := walk_rem_ge ob.asks (qB / m) hqtyA
  have hremB : 0 < (walk ob.asks (qB / m)).2 := by linarith
  refine ⟨hremB, ?_⟩
  have hrem_bd := walk_rem_bounds ob.asks (qB / m) hqtyA (le_of_lt hbaseB)
  have hfirstA : ∀ l ∈ ob.asks, a1 ≤ l.1 := by
    intro l hl
    have := hfirst l hl
    rwa [hpx] at this
  have hcost := walk_cost_ge ob.asks (qB / m) a1 hfirstA hqtyA
    (le_of_lt hbaseB) (le_of_lt ha1pos)
  have hlastmem : ob.asks.getLastD (0, 0) ∈ ob.asks := getLastD_mem ob.asks (0, 0) ha
  have hlast : a1 ≤ lastPx ob.asks := hfirstA _ hlastmem
  -- total cost of the big order strictly exceeds the best ask price times base
  have htotalB : a1 * (qB / m) <
      (walk ob.asks (qB / m)).1 +
        (walk ob.asks (qB / m)).2 * lastPx ob.asks * (21/20) := by
    nlinarith [mul_le_mul_of_nonneg_left hlast (le_of_lt hremB),
      mul_pos hremB ha1pos]
  -- the small order fills at the top level exactly
  have hsmall2 : qS / m ≤ aq1 := by rwa [hqty0] at hsmall
  have hbaseS : 0 < qS / m := div_pos hqS hm0
  have hwS : walk ob.asks (qS / m) = (qS / m * a1, 0) := by
    rw [heq, walk_cons, min_eq_left hsmall2, sub_self, if_pos (le_refl 0)]
  have havgS : qS / m * a1 / (qS / m) = a1 := by
    rw [mul_comm, mul_div_assoc, div_self (ne_of_gt hbaseS), mul_one]
  -- evaluate both slippage results
  rw [calculateSlippage_buy_eq ob qS ha, calculateSlippage_buy_eq ob qB ha,
    ← hmdef, hwS]
  simp only [lt_self_iff_false, if_false, if_pos hremB]
  rw [havgS]
  have hspS : (0:ℚ) ≤ (a1 - m) / m := div_nonneg (by linarith) (le_of_lt hm0)
  have havgB : a1 < ((walk ob.asks (qB / m)).1 +
      (walk ob.asks (qB / m)).2 * lastPx ob.asks * (21/20)) / (qB / m) :=
    (lt_div_iff₀ hbaseB).mpr (by nlinarith)
  have hspB : (a1 - m) / m < (((walk ob.asks (qB / m)).1 +
      (walk ob.asks (qB / m)).2 * lastPx ob.asks * (21/20)) / (qB / m) - m) / m :=
    (div_lt_div_iff_of_pos_right hm0).mpr (by linarith)
  rw [max_eq_left hspS, max_eq_left (le_trans hspS (le_of_lt hspB))]
  exact hspB

/-- C3 witness for the amended statement: on the book with bids `[(100, 1)]`
and asks `[(102, 5)]` (mid-price 101), the buy quantity 606 has base-asset
size 6, exceeding the ask depth 5, so the penalty fires and its slippage is
strictly above that of the buy quantity 50.5 that fills within the top ask
level. -/
theorem penalty_slippage_buy_witness :
    0 < (walk (OrderbookData.mk [(100, 1)] [(102, 5)] 0).asks
        (606 / midPrice (OrderbookData.mk [(100, 1)] [(102, 5)] 0) .buy)).2 ∧
      calculateSlippage (OrderbookData.mk [(100, 1)] [(102, 5)] 0) (101/2) .buy <
        calculateSlippage (OrderbookData.mk [(100, 1)] [(102, 5)] 0) 606 .buy := by
  have hmid : midPrice (OrderbookData.mk [(100, 1)] [(102, 5)] 0) .buy = 101 := by
    norm_num [midPrice, px0]
  refine penalty_slippage_buy (OrderbookData.mk [(100, 1)] [(102, 5)] 0)
    606 (101/2) (by simp) ?_ ?_ ?_ ?_ ?_ ?_ (by norm_num) ?_
  · intro l hl
    simp at hl
    rw [hl]
    norm_num
  · intro l hl
    simp at hl
    rw [hl]
    norm_num
  · intro l hl
    simp at hl
    rw [hl]
    norm_num
  · intro l hl
    simp at hl
    rw [hl]
    norm_num [px0]
  · intro _
    norm_num [px0]
  · rw [hmid]
    norm_num [qtySum]
  · rw [hmid]
    norm_num [qty0]

/-- C3 counterexample to the claim as stated: the penalty path does not
always produce strictly higher slippage.  On the sell side of the ordinary
uncrossed book with bids `[(100, 1)]` and asks `[(102, 5)]` (mid 101), the
quantity 202 (base size 2, exceeding the bid depth 1) takes the penalty
branch, yet its reported slippage is 0, strictly lower than the slippage of
the in-book quantity 50.5; and on the buy side of the crossed book with bids
`[(1000, 1)]` and asks `[(10, 5)]`, the penalty-triggering quantity 5050
reports the same slippage 0 as the in-book quantity 505. -/
theorem penalty_slippage_counterexample :
    (0 < (walk (OrderbookData.mk [(100, 1)] [(102, 5)] 0).bids
        (202 / midPrice (OrderbookData.mk [(100, 1)] [(102, 5)] 0) .sell)).2 ∧
      ¬calculateSlippage (OrderbookData.mk [(100, 1)] [(102, 5)] 0) (101/2) .sell <
        calculateSlippage (OrderbookData.mk [(100, 1)] [(102, 5)] 0) 202 .sell) ∧
    (0 < (walk (OrderbookData.mk [(1000, 1)] [(10, 5)] 0).asks
        (5050 / midPrice (OrderbookData.mk [(1000, 1)] [(10, 5)] 0) .buy)).2 ∧
      ¬calculateSlippage (OrderbookData.mk [(1000, 1)] [(10, 5)] 0) 505 .buy <
        calculateSlippage (OrderbookData.mk [(1000, 1)] [(10, 5)] 0) 5050 .buy) := by
  constructor
  · constructor
    · norm_num [walk, midPrice, px0, min_def]
    · norm_num [calculateSlippage, sideOrders, midPrice, px0, lastPx, walk,
        min_def, max_def]
  · constructor
    · norm_num [walk, midPrice, px0, min_def]
    · norm_num [calculateSlippage, sideOrders, midPrice, px0, lastPx, walk,
        min_def, max_def]

end GoQuant

namespace GoQuant

/-- C1: for every order-book snapshot and every simulation-parameters record
(and every model of `Math.sqrt` and `Math.exp`), the `TradingMetricsResult`
returned by `calculateTradingMetrics` satisfies
`netCost = slippage + fees + marketImpact` within `1e-9` (in exact rational
arithmetic the difference is zero). -/
theorem netCost_eq_sum_of_components (jsqrt jexp : ℚ → ℚ) (ob : OrderbookData)
    (params : SimulationParams) :
    |(calculateTradingMetrics jsqrt jexp ob params).netCost -
        ((calculateTradingMetrics jsqrt jexp ob params).slippage +
          (calculateTradingMetrics jsqrt jexp ob params).fees +
          (calculateTradingMetrics jsqrt jexp ob params).marketImpact)| ≤
      1 / 1000000000 := by
  have h : (calculateTradingMetrics jsqrt jexp ob params).netCost =
      (calculateTradingMetrics jsqrt jexp ob params).slippage +
        (calculateTradingMetrics jsqrt jexp ob params).fees +
        (calculateTradingMetrics jsqrt jexp ob params).marketImpact := rfl
  rw [h, sub_self, abs_zero]
  norm_num

/-- The clamp `min(max(x, 0.0001), 0.05)` always lands in `[0.0001, 0.05]`. -/
theorem clampBounds (x : ℚ) :
    1/10000 ≤ min (max x (1/10000)) (1/20) ∧
      min (max x (1/10000)) (1/20) ≤ 1/20 :=
  ⟨le_min (le_max_right _ _) (by norm_num), min_le_right _ _⟩

/-- On a book with both sides non-empty, `calculateMarketImpact` computes the
clamp of the impact expression, written through the named sub-expressions. -/
theorem marketImpact_eq (jsqrt : ℚ → ℚ) (ob : OrderbookData) (q vol : ℚ)
    (hbe : ¬ob.bids.isEmpty) (hae : ¬ob.asks.isEmpty) :
    calculateMarketImpact jsqrt ob q vol =
      min (max (jsqrt (impactSpreadVol ob vol) * impactNQ ob q *
        jsqrt (impactNQ ob q)) (1/10000)) (1/20) := by
  unfold calculateMarketImpact impactSpreadVol impactNQ impactDepth
  rw [if_neg (by simp [hbe, hae])]

/-- C4 counterexample: the clamp bound fails inside the claim's own
quantifiers.  On the crossed book with non-empty bids `[(102, 1)]` and asks
`[(100, 1)]` (quantity 100, volatility 50), `normalizedSpread` is negative,
so `Math.sqrt` receives a negative argument and the JavaScript code returns
NaN, which escapes the `Math.min`/`Math.max` clamp: the NaN-tracking mirror
reports `none` instead of a value in `[0.0001, 0.05]`. -/
theorem marketImpact_nan_counterexample :
    (OrderbookData.mk [(102, 1)] [(100, 1)] 0).bids ≠ [] ∧
      (OrderbookData.mk [(102, 1)] [(100, 1)] 0).asks ≠ [] ∧
      calculateMarketImpactChecked (fun _ => 0)
        (OrderbookData.mk [(102, 1)] [(100, 1)] 0) 100 50 = none := by
  refine ⟨by simp, by simp, ?_⟩
  norm_num [calculateMarketImpactChecked, impactSpreadVol, px0]

/-- C4 (amended): on every snapshot with both sides non-empty, positive best
bid and best bid not exceeding the best ask, and every non-negative quantity
and volatility — the inputs on which `Math.sqrt` receives no negative
argument — no NaN arises (the NaN-tracking mirror agrees with
`calculateMarketImpact`) and the returned market impact lies in the closed
interval `[0.0001, 0.05]`; moreover every value the computation actually
returns (whenever the mirror reports no NaN, on any input) is
non-negative. -/
theorem marketImpact_clamped_nanfree (jsqrt : ℚ → ℚ) (ob : OrderbookData)
    (q vol : ℚ) :
    (ob.bids ≠ [] → ob.asks ≠ [] → 0 < px0 ob.bids →
      px0 ob.bids ≤ px0 ob.asks → 0 ≤ q → 0 ≤ vol →
      calculateMarketImpactChecked jsqrt ob q vol =
          some (calculateMarketImpact jsqrt ob q vol) ∧
        1/10000 ≤ calculateMarketImpact jsqrt ob q vol ∧
        calculateMarketImpact jsqrt ob q vol ≤ 1/20) ∧
      (∀ r, calculateMarketImpactChecked jsqrt ob q vol = some r → 0 ≤ r) := by
  constructor
  · intro hb ha hbid hcross hq hv
    have hbe : ¬ob.bids.isEmpty := by simpa [List.isEmpty_iff] using hb
    have hae : ¬ob.asks.isEmpty := by simpa [List.isEmpty_iff] using ha
    have hmid : 0 < (px0 ob.bids + px0 ob.asks) / 2 := by linarith
    have hsv : 0 ≤ impactSpreadVol ob vol := by
      unfold impactSpreadVol
      exact mul_nonneg (div_nonneg (by linarith) (le_of_lt hmid)) (by linarith)
    have hnq : 0 ≤ impactNQ ob q := by
      unfold impactNQ
      by_cases hD : 0 < impactDepth ob
      · rw [if_pos hD]
        exact div_nonneg (div_nonneg hq (le_of_lt hmid)) (le_of_lt hD)
      · rw [if_neg hD]
    rw [marketImpact_eq jsqrt ob q vol hbe hae]
    refine ⟨?_, clampBounds _⟩
    unfold calculateMarketImpactChecked
    rw [if_neg (by simp [hbe, hae]), if_neg (ne_of_gt hmid),
      if_neg (not_lt.mpr hsv), if_neg (not_lt.mpr hnq)]
  · intro r hr
    unfold calculateMarketImpactChecked at hr
    by_cases h1 : ob.bids.isEmpty ∨ ob.asks.isEmpty
    · rw [if_pos h1, Option.some.injEq] at hr
      rw [← hr]
    · rw [if_neg h1] at hr
      by_cases h2 : (px0 ob.bids + px0 ob.asks) / 2 = 0
      · rw [if_pos h2] at hr
        exact absurd hr (by simp)
      · rw [if_neg h2] at hr
        by_cases h3 : impactSpreadVol ob vol < 0
        · rw [if_pos h3] at hr
          exact absurd hr (by simp)
        · rw [if_neg h3] at hr
          by_cases h4 : impactNQ ob q < 0
          · rw [if_pos h4] at hr
            exact absurd hr (by simp)
          · rw [if_neg h4, Option.some.injEq] at hr
            rw [← hr]
            exact le_trans (by norm_num) (clampBounds _).1

/-- C4 witness for the amended statement: at the Scenario A book (best bid
19500, best ask 19550, uncrossed) with quantity 100, volatility 50 and the
zero model of the square root, no NaN arises and the clamp bounds hold. -/
theorem marketImpact_clamped_nanfree_witness :
    calculateMarketImpactChecked (fun _ => 0) scenarioABook 100 50 =
        some (calculateMarketImpact (fun _ => 0) scenarioABook 100 50) ∧
      1/10000 ≤ calculateMarketImpact (fun _ => 0) scenarioABook 100 50 ∧
      calculateMarketImpact (fun _ => 0) scenarioABook 100 50 ≤ 1/20 :=
  (marketImpact_clamped_nanfree (fun _ => 0) scenarioABook 100 50).1
    (by simp [scenarioABook]) (by simp [scenarioABook])
    (by norm_num [scenarioABook, px0]) (by norm_num [scenarioABook, px0])
    (by norm_num) (by norm_num)

/-- C6: for every book with empty bids, empty asks, or both, every estimator
fallback fires and no computation faults: `calculateMarketImpact` returns 0
and `calculateMakerTakerProportion` returns the 0.5/0.5 split (for any models
of `Math.sqrt` and `Math.exp`, any quantity and volatility). -/
theorem emptyBook_fallbacks (jsqrt jexp : ℚ → ℚ) (ob : OrderbookData)
    (quantity volatility : ℚ) (h : ob.bids = [] ∨ ob.asks = []) :
    calculateMarketImpact jsqrt ob quantity volatility = 0 ∧
      calculateMakerTakerProportion jexp ob volatility = (1/2, 1/2) := by
  have h2 : ob.bids.isEmpty ∨ ob.asks.isEmpty := by
    rcases h with h | h
    · exact Or.inl (by simp [h])
    · exact Or.inr (by simp [h])
  constructor
  · unfold calculateMarketImpact
    simp only [h2, if_pos]
  · unfold calculateMakerTakerProportion
    simp only [h2, if_pos]

/-- C6 witness: at the book with both sides empty the fallback values are
returned. -/
theorem emptyBook_fallbacks_witness :
    calculateMarketImpact (fun _ => 0) ⟨[], [], 0⟩ 100 50 = 0 ∧
      calculateMakerTakerProportion (fun _ => 0) ⟨[], [], 0⟩ 50 = (1/2, 1/2) :=
  emptyBook_fallbacks (fun _ => 0) (fun _ => 0) ⟨[], [], 0⟩ 100 50 (Or.inl rfl)

/-- C8: `getFeeRate` maps tiers 1..5 to the strictly decreasing rates
0.001, 0.0008, 0.0006, 0.0004, 0.0002; any unrecognized tier string falls
back to 0.001; and for feeTier "tier1" the `fees` field of the result equals
exactly 0.001 independently of the snapshot and quantity. -/
theorem feeRate_table :
    getFeeRate "tier1" = 1/1000 ∧
      getFeeRate "tier2" = 8/10000 ∧
      getFeeRate "tier3" = 6/10000 ∧
      getFeeRate "tier4" = 4/10000 ∧
      getFeeRate "tier5" = 2/10000 ∧
      (getFeeRate "tier2" < getFeeRate "tier1" ∧
        getFeeRate "tier3" < getFeeRate "tier2" ∧
        getFeeRate "tier4" < getFeeRate "tier3" ∧
        getFeeRate "tier5" < getFeeRate "tier4") ∧
      (∀ s : String, s ≠ "tier1" → s ≠ "tier2" → s ≠ "tier3" → s ≠ "tier4" →
        s ≠ "tier5" → getFeeRate s = 1/1000) ∧
      (∀ (jsqrt jexp : ℚ → ℚ) (ob : OrderbookData) (q v : ℚ),
        (calculateTradingMetrics jsqrt jexp ob ⟨q, v, "tier1"⟩).fees = 1/1000) := by
  have h1 : getFeeRate "tier1" = 1/1000 := by rw [getFeeRate, if_pos rfl]
  have h2 : getFeeRate "tier2" = 8/10000 := by
    rw [getFeeRate, if_neg (by decide), if_pos rfl]
  have h3 : getFeeRate "tier3" = 6/10000 := by
    rw [getFeeRate, if_neg (by decide), if_neg (by decide), if_pos rfl]
  have h4 : getFeeRate "tier4" = 4/10000 := by
    rw [getFeeRate, if_neg (by decide), if_neg (by decide), if_neg (by decide),
      if_pos rfl]
  have h5 : getFeeRate "tier5" = 2/10000 := by
    rw [getFeeRate, if_neg (by decide), if_neg (by decide), if_neg (by decide),
      if_neg (by decide), if_pos rfl]
  refine ⟨h1, h2, h3, h4, h5,
    ⟨by rw [h1, h2]; norm_num, by rw [h2, h3]; norm_num,
      by rw [h3, h4]; norm_num, by rw [h4, h5]; norm_num⟩, ?_, ?_⟩
  · intro s g1 g2 g3 g4 g5
    simp [getFeeRate, g1, g2, g3, g4, g5]
  · intro jsqrt jexp ob q v
    have hfees : (calculateTradingMetrics jsqrt jexp ob ⟨q, v, "tier1"⟩).fees =
        getFeeRate "tier1" := rfl
    rw [hfees, h1]

/-- C8 witness: the unrecognized tier string "weird" falls back to the
highest-fee rate 0.001. -/
theorem feeRate_table_witness : getFeeRate "weird" = 1/1000 :=
  feeRate_table.2.2.2.2.2.2.1 "weird" (by decide) (by decide) (by decide)
    (by decide) (by decide)

/-- C10: when the side of the book to be walked is empty, `calculateSlippage`
returns exactly 0 (the undocumented empty-book slippage fallback), and with
both sides empty the reported `netCost` reduces to the fee rate alone. -/
theorem emptySide_slippage_zero (ob : OrderbookData) (q : ℚ) :
    (ob.asks = [] → calculateSlippage ob q .buy = 0) ∧
      (ob.bids = [] → calculateSlippage ob q .sell = 0) ∧
      (∀ (jsqrt jexp : ℚ → ℚ) (params : SimulationParams), ob.bids = [] →
        ob.asks = [] →
        (calculateTradingMetrics jsqrt jexp ob params).netCost =
          getFeeRate params.feeTier) := by
  refine ⟨?_, ?_, ?_⟩
  · intro h
    unfold calculateSlippage
    simp [sideOrders, h]
  · intro h
    unfold calculateSlippage
    simp [sideOrders, h]
  · intro jsqrt jexp params hb ha
    have hslipb : calculateSlippage ob params.quantity .buy = 0 := by
      unfold calculateSlippage
      simp [sideOrders, ha]
    have hslips : calculateSlippage ob params.quantity .sell = 0 := by
      unfold calculateSlippage
      simp [sideOrders, hb]
    have himp : calculateMarketImpact jsqrt ob params.quantity params.volatility = 0 := by
      unfold calculateMarketImpact
      simp [hb]
    have hnet : (calculateTradingMetrics jsqrt jexp ob params).netCost =
        (calculateSlippage ob params.quantity .buy +
            calculateSlippage ob params.quantity .sell) / 2 +
          getFeeRate params.feeTier +
          calculateMarketImpact jsqrt ob params.quantity params.volatility := rfl
    rw [hnet, hslipb, hslips, himp]
    ring

/-- C10 witness: on the fully empty book with quantity 7 and fee tier
"tier2" the slippage fallbacks fire and the net cost equals the tier-2
rate. -/
theorem emptySide_slippage_zero_witness :
    calculateSlippage ⟨[], [], 0⟩ 7 .buy = 0 ∧
      calculateSlippage ⟨[], [], 0⟩ 7 .sell = 0 ∧
      (calculateTradingMetrics (fun _ => 0) (fun _ => 0) ⟨[], [], 0⟩
          ⟨7, 3, "tier2"⟩).netCost = getFeeRate "tier2" :=
  ⟨(emptySide_slippage_zero ⟨[], [], 0⟩ 7).1 rfl,
    (emptySide_slippage_zero ⟨[], [], 0⟩ 7).2.1 rfl,
    (emptySide_slippage_zero ⟨[], [], 0⟩ 7).2.2 (fun _ => 0) (fun _ => 0)
      ⟨7, 3, "tier2"⟩ rfl rfl⟩

/-- C7: the claim that every computation path of `calculateTradingMetrics`
yields well-defined finite numeric fields fails at quantity 0: on the
Scenario A book, `calculateSlippage` divides the total cost by the base
quantity `0 / midPrice = 0` (`calculateSlippageChecked` returns `none`,
where the JavaScript original computes `0 / 0 = NaN`, which then propagates
to the reported slippage and net cost); the normal path at quantity 100 is
division-safe by contrast. -/
theorem slippage_div_zero_at_qty_zero :
    calculateSlippageChecked scenarioABook 0 .buy = none ∧
      calculateSlippageChecked scenarioABook 100 .buy ≠ none := by
  constructor
  · norm_num [calculateSlippageChecked, scenarioABook, sideOrders, midPrice,
      px0, lastPx, walk, min_def]
  · norm_num [calculateSlippageChecked, scenarioABook, sideOrders, midPrice,
      px0, lastPx, walk, min_def]
    decide

end GoQuant

namespace GoQuant

theorem mem_insertQD (z y : ℚ × ℚ) :
    ∀ l : List (ℚ × ℚ), y ∈ insertQD z l ↔ y = z ∨ y ∈ l := by
  intro l
  induction l with
  | nil => simp [insertQD]
  | cons x t ih =>
    rw [insertQD]
    by_cases hx : x.1 < z.1
    · rw [if_pos hx]
      simp [List.mem_cons]
    · rw [if_neg hx]
      simp only [List.mem_cons, ih]
      tauto

theorem pairwise_insertQD (z : ℚ × ℚ) :
    ∀ l : List (ℚ × ℚ), List.Pairwise (fun a b => b.1 ≤ a.1) l →
      List.Pairwise (fun a b => b.1 ≤ a.1) (insertQD z l) := by
  intro l
  induction l with
  | nil => intro _; simp [insertQD]
  | cons x t ih =>
    intro h
    rw [List.pairwise_cons] at h
    rw [insertQD]
    by_cases hx : x.1 < z.1
    · rw [if_pos hx]
      rw [List.pairwise_cons]
      constructor
      · intro y hy
        rcases List.mem_cons.mp hy with hy | hy
        · rw [hy]
          exact le_of_lt hx
        · exact le_trans (h.1 y hy) (le_of_lt hx)
      · rw [List.pairwise_cons]
        exact h
    · rw [if_neg hx]
      rw [List.pairwise_cons]
      constructor
      · intro y hy
        rcases (mem_insertQD z y t).mp hy with hy | hy
        · rw [hy]
          exact le_of_not_lt hx
        · exact h.1 y hy
      · exact ih h.2

theorem insertQD_perm (z : ℚ × ℚ) :
    ∀ l : List (ℚ × ℚ), List.Perm (insertQD z l) (z :: l) := by
  intro l
  induction l with
  | nil => simp [insertQD]
  | cons x t ih =>
    rw [insertQD]
    by_cases hx : x.1 < z.1
    · rw [if_pos hx]
    · rw [if_neg hx]
      exact List.Perm.trans (List.Perm.cons x ih) (List.Perm.swap z x t)

theorem sortQD_pairwise_aux :
    ∀ (l acc : List (ℚ × ℚ)), List.Pairwise (fun a b => b.1 ≤ a.1) acc →
      List.Pairwise (fun a b => b.1 ≤ a.1)
        (l.foldl (fun acc z => insertQD z acc) acc) := by
  intro l
  induction l with
  | nil => intro acc h; exact h
  | cons z t ih =>
    intro acc h
    exact ih (insertQD z acc) (pairwise_insertQD z acc h)

theorem sortQD_pairwise (l : List (ℚ × ℚ)) :
    List.Pairwise (fun a b => b.1 ≤ a.1) (sortQD l) :=
  sortQD_pairwise_aux l [] (by simp)

theorem sortQD_perm_aux :
    ∀ (l acc : List (ℚ × ℚ)),
      List.Perm (l.foldl (fun acc z => insertQD z acc) acc) (l ++ acc) := by
  intro l
  induction l with
  | nil => intro acc; simp
  | cons z t ih =>
    intro acc
    refine List.Perm.trans (ih (insertQD z acc)) ?_
    refine List.Perm.trans (List.Perm.append_left t (insertQD_perm z acc)) ?_
    exact List.perm_middle

theorem sortQD_perm (l : List (ℚ × ℚ)) : List.Perm (sortQD l) l := by
  have h := sortQD_perm_aux l []
  simpa [sortQD] using h

theorem sortQD_strict (l : List (ℚ × ℚ))
    (hd : List.Pairwise (fun a b => a.1 ≠ b.1) l) :
    List.Pairwise (fun a b => b.1 < a.1) (sortQD l) := by
  have hs := sortQD_pairwise l
  have hne : List.Pairwise (fun a b : ℚ × ℚ => a.1 ≠ b.1) (sortQD l) :=
    ((sortQD_perm l).pairwise_iff fun h => Ne.symm h).mpr hd
  exact (hs.and hne).imp fun h => lt_of_le_of_ne h.1 (Ne.symm h.2)

theorem mem_insertQA (z y : ℚ × ℚ) :
    ∀ l : List (ℚ × ℚ), y ∈ insertQA z l ↔ y = z ∨ y ∈ l := by
  intro l
  induction l with
  | nil => simp [insertQA]
  | cons x t ih =>
    rw [insertQA]
    by_cases hx : z.1 < x.1
    · rw [if_pos hx]
      simp [List.mem_cons]
    · rw [if_neg hx]
      simp only [List.mem_cons, ih]
      tauto

theorem pairwise_insertQA (z : ℚ × ℚ) :
    ∀ l : List (ℚ × ℚ), List.Pairwise (fun a b => a.1 ≤ b.1) l →
      List.Pairwise (fun a b => a.1 ≤ b.1) (insertQA z l) := by
  intro l
  induction l with
  | nil => intro _; simp [insertQA]
  | cons x t ih =>
    intro h
    rw [List.pairwise_cons] at h
    rw [insertQA]
    by_cases hx : z.1 < x.1
    · rw [if_pos hx]
      rw [List.pairwise_cons]
      constructor
      · intro y hy
        rcases List.mem_cons.mp hy with hy | hy
        · rw [hy]
          exact le_of_lt hx
        · exact le_trans (le_of_lt hx) (h.1 y hy)
      · rw [List.pairwise_cons]
        exact h
    · rw [if_neg hx]
      rw [List.pairwise_cons]
      constructor
      · intro y hy
        rcases (mem_insertQA z y t).mp hy with hy | hy
        · rw [hy]
          exact le_of_not_lt hx
        · exact h.1 y hy
      · exact ih h.2

theorem insertQA_perm (z : ℚ × ℚ) :
    ∀ l : List (ℚ × ℚ), List.Perm (insertQA z l) (z :: l) := by
  intro l
  induction l with
  | nil => simp [insertQA]
  | cons x t ih =>
    rw [insertQA]
    by_cases hx : z.1 < x.1
    · rw [if_pos hx]
    · rw [if_neg hx]
      exact List.Perm.trans (List.Perm.cons x ih) (List.Perm.swap z x t)

theorem sortQA_pairwise_aux :
    ∀ (l acc : List (ℚ × ℚ)), List.Pairwise (fun a b => a.1 ≤ b.1) acc →
      List.Pairwise (fun a b => a.1 ≤ b.1)
        (l.foldl (fun acc z => insertQA z acc) acc) := by
  intro l
  induction l with
  | nil => intro acc h; exact h
  | cons z t ih =>
    intro acc h
    exact ih (insertQA z acc) (pairwise_insertQA z acc h)

theorem sortQA_pairwise (l : List (ℚ × ℚ)) :
    List.Pairwise (fun a b => a.1 ≤ b.1) (sortQA l) :=
  sortQA_pairwise_aux l [] (by simp)

theorem sortQA_perm_aux :
    ∀ (l acc : List (ℚ × ℚ)),
      List.Perm (l.foldl (fun acc z => insertQA z acc) acc) (l ++ acc) := by
  intro l
  induction l with
  | nil => intro acc; simp
  | cons z t ih =>
    intro acc
    refine List.Perm.trans (ih (insertQA z acc)) ?_
    refine List.Perm.trans (List.Perm.append_left t (insertQA_perm z acc)) ?_
    exact List.perm_middle

theorem sortQA_perm (l : List (ℚ × ℚ)) : List.Perm (sortQA l) l := by
  have h := sortQA_perm_aux l []
  simpa [sortQA] using h

theorem sortQA_strict (l : List (ℚ × ℚ))
    (hd : List.Pairwise (fun a b => a.1 ≠ b.1) l) :
    List.Pairwise (fun a b => a.1 < b.1) (sortQA l) := by
  have hs := sortQA_pairwise l
  have hne : List.Pairwise (fun a b : ℚ × ℚ => a.1 ≠ b.1) (sortQA l) :=
    ((sortQA_perm l).pairwise_iff fun h => Ne.symm h).mpr hd
  exact (hs.and hne).imp fun h => lt_of_le_of_ne h.1 h.2

theorem insertJ_bid_comm (z : ℚ × ℚ) :
    ∀ l : List (ℚ × ℚ),
      insertJ jltBid (injEntry z) (l.map injEntry) =
        (insertQD z l).map injEntry := by
  intro l
  induction l with
  | nil => rfl
  | cons x t ih =>
    rw [List.map_cons, insertJ, insertQD]
    have hb : jltBid (injEntry z) (injEntry x) = decide (x.1 < z.1) := rfl
    by_cases hx : x.1 < z.1
    · rw [if_pos (by rw [hb]; exact decide_eq_true hx), if_pos hx]
      rfl
    · rw [if_neg (by rw [hb]; simpa using hx), if_neg hx]
      rw [List.map_cons, ih]

theorem sortJ_bid_comm_aux :
    ∀ (l acc : List (ℚ × ℚ)),
      (l.map injEntry).foldl (fun acc z => insertJ jltBid z acc)
          (acc.map injEntry) =
        (l.foldl (fun acc z => insertQD z acc) acc).map injEntry := by
  intro l
  induction l with
  | nil => intro acc; rfl
  | cons z t ih =>
    intro acc
    rw [List.map_cons, List.foldl_cons, List.foldl_cons,
      insertJ_bid_comm z acc, ih (insertQD z acc)]

theorem sortJ_bid_comm (l : List (ℚ × ℚ)) :
    sortJ jltBid (l.map injEntry) = (sortQD l).map injEntry :=
  sortJ_bid_comm_aux l []

theorem insertJ_ask_comm (z : ℚ × ℚ) :
    ∀ l : List (ℚ × ℚ),
      insertJ jltAsk (injEntry z) (l.map injEntry) =
        (insertQA z l).map injEntry := by
  intro l
  induction l with
  | nil => rfl
  | cons x t ih =>
    rw [List.map_cons, insertJ, insertQA]
    have hb : jltAsk (injEntry z) (injEntry x) = decide (z.1 < x.1) := rfl
    by_cases hx : z.1 < x.1
    · rw [if_pos (by rw [hb]; exact decide_eq_true hx), if_pos hx]
      rfl
    · rw [if_neg (by rw [hb]; simpa using hx), if_neg hx]
      rw [List.map_cons, ih]

theorem sortJ_ask_comm_aux :
    ∀ (l acc : List (ℚ × ℚ)),
      (l.map injEntry).foldl (fun acc z => insertJ jltAsk z acc)
          (acc.map injEntry) =
        (l.foldl (fun acc z => insertQA z acc) acc).map injEntry := by
  intro l
  induction l with
  | nil => intro acc; rfl
  | cons z t ih =>
    intro acc
    rw [List.map_cons, List.foldl_cons, List.foldl_cons,
      insertJ_ask_comm z acc, ih (insertQA z acc)]

theorem sortJ_ask_comm (l : List (ℚ × ℚ)) :
    sortJ jltAsk (l.map injEntry) = (sortQA l).map injEntry :=
  sortJ_ask_comm_aux l []

theorem parseEntries_rawEntry (l : List (ℚ × ℚ)) :
    parseEntries (l.map rawEntry) = l.map injEntry := by
  unfold parseEntries
  rw [List.map_map]
  rfl

end GoQuant

namespace GoQuant

/-- C2: the claim that a message whose price fails to parse leaves the
published snapshot unchanged and increments the error indicator once fails on
the code.  For the valid-JSON snapshot message with the non-numeric bid price
string (`parseFloat` yields NaN without throwing, so the `try`/`catch` does
not fire), `processWebSocketMessage` publishes a new snapshot containing the
NaN level and the error indicator is not touched. -/
theorem malformedTick_published :
    (onMessage 1 initialHookState (.msg malformedTickMsg)).book.bids =
        [(none, some 1)] ∧
      (onMessage 1 initialHookState (.msg malformedTickMsg)).book ≠
        initialHookState.book ∧
      (onMessage 1 initialHookState (.msg malformedTickMsg)).errorSets =
        initialHookState.errorSets := by
  refine ⟨rfl, ?_, rfl⟩
  intro h
  have hb : ([(none, some 1)] : List JEntry) = [] := congrArg JBook.bids h
  exact absurd hb (by simp)

/-- C5 counterexample: published bids are not strictly descending with unique
prices and duplicates are not resolved last-seen-wins.  The well-formed
message with two bid levels at the same price 100 publishes both levels (in
input order), so the published bid prices are not pairwise distinct. -/
theorem duplicate_price_counterexample :
    (onMessage 1 initialHookState (.msg duplicatePriceMsg)).book.bids =
        [(some 100, some 1), (some 100, some 2)] ∧
      ¬List.Pairwise (fun a b : JEntry => a.1 ≠ b.1)
        (onMessage 1 initialHookState (.msg duplicatePriceMsg)).book.bids := by
  refine ⟨rfl, ?_⟩
  intro h
  have h2 := List.rel_of_pairwise_cons h (List.mem_cons_self _ _)
  exact h2 rfl

/-- C5 (amended): for every well-formed inbound message of type `snapshot` or
`update`, the published bids are the stable descending-by-price sort of the
raw bid levels and the asks the stable ascending sort; the published levels
are a permutation of the raw input (duplicate price levels are all retained,
in input order — there is no last-seen-wins deduplication); and when the raw
prices on a side are pairwise distinct, that side is strictly sorted with
unique prices. -/
theorem wellformed_publish_sorted (mtype : String) (qbids qasks : List (ℚ × ℚ))
    (ts now : ℚ) (s : HookState) (hty : mtype = "snapshot" ∨ mtype = "update") :
    (processWebSocketMessage now s
        ⟨mtype, qbids.map rawEntry, qasks.map rawEntry, ts⟩).book.bids =
        (sortQD qbids).map injEntry ∧
      (processWebSocketMessage now s
        ⟨mtype, qbids.map rawEntry, qasks.map rawEntry, ts⟩).book.asks =
        (sortQA qasks).map injEntry ∧
      List.Pairwise (fun a b => b.1 ≤ a.1) (sortQD qbids) ∧
      List.Pairwise (fun a b => a.1 ≤ b.1) (sortQA qasks) ∧
      List.Perm (sortQD qbids) qbids ∧
      List.Perm (sortQA qasks) qasks ∧
      (List.Pairwise (fun a b => a.1 ≠ b.1) qbids →
        List.Pairwise (fun a b => b.1 < a.1) (sortQD qbids)) ∧
      (List.Pairwise (fun a b => a.1 ≠ b.1) qasks →
        List.Pairwise (fun a b => a.1 < b.1) (sortQA qasks)) := by
  have hpub : processWebSocketMessage now s
      ⟨mtype, qbids.map rawEntry, qasks.map rawEntry, ts⟩ =
      { s with
          book :=
            { bids := sortJ jltBid (parseEntries (qbids.map rawEntry))
              asks := sortJ jltAsk (parseEntries (qasks.map rawEntry))
              timestamp := if ts = 0 then now else ts } } := by
    unfold processWebSocketMessage
    rw [if_pos hty]
  rw [hpub]
  refine ⟨?_, ?_, sortQD_pairwise qbids, sortQA_pairwise qasks,
    sortQD_perm qbids, sortQA_perm qasks, sortQD_strict qbids,
    sortQA_strict qasks⟩
  · show sortJ jltBid (parseEntries (qbids.map rawEntry)) = _
    rw [parseEntries_rawEntry, sortJ_bid_comm]
  · show sortJ jltAsk (parseEntries (qasks.map rawEntry)) = _
    rw [parseEntries_rawEntry, sortJ_ask_comm]

/-- C5 witness: the amended statement applied to a concrete snapshot message
with bids `[(2, 1), (5, 1)]` and asks `[(9, 1), (7, 1)]`. -/
theorem wellformed_publish_sorted_witness :
    (processWebSocketMessage 1 initialHookState
        ⟨"snapshot", [((2:ℚ), (1:ℚ)), (5, 1)].map rawEntry,
          [((9:ℚ), (1:ℚ)), (7, 1)].map rawEntry, 5⟩).book.bids =
        (sortQD [((2:ℚ), (1:ℚ)), (5, 1)]).map injEntry ∧
      (processWebSocketMessage 1 initialHookState
        ⟨"snapshot", [((2:ℚ), (1:ℚ)), (5, 1)].map rawEntry,
          [((9:ℚ), (1:ℚ)), (7, 1)].map rawEntry, 5⟩).book.asks =
        (sortQA [((9:ℚ), (1:ℚ)), (7, 1)]).map injEntry ∧
      List.Pairwise (fun a b => b.1 ≤ a.1) (sortQD [((2:ℚ), (1:ℚ)), (5, 1)]) ∧
      List.Pairwise (fun a b => a.1 ≤ b.1) (sortQA [((9:ℚ), (1:ℚ)), (7, 1)]) ∧
      List.Perm (sortQD [((2:ℚ), (1:ℚ)), (5, 1)]) [((2:ℚ), (1:ℚ)), (5, 1)] ∧
      List.Perm (sortQA [((9:ℚ), (1:ℚ)), (7, 1)]) [((9:ℚ), (1:ℚ)), (7, 1)] ∧
      (List.Pairwise (fun a b => a.1 ≠ b.1) [((2:ℚ), (1:ℚ)), (5, 1)] →
        List.Pairwise (fun a b => b.1 < a.1) (sortQD [((2:ℚ), (1:ℚ)), (5, 1)])) ∧
      (List.Pairwise (fun a b => a.1 ≠ b.1) [((9:ℚ), (1:ℚ)), (7, 1)] →
        List.Pairwise (fun a b => a.1 < b.1) (sortQA [((9:ℚ), (1:ℚ)), (7, 1)])) :=
  wellformed_publish_sorted "snapshot" [((2:ℚ), (1:ℚ)), (5, 1)]
    [((9:ℚ), (1:ℚ)), (7, 1)] 5 1 initialHookState (Or.inl rfl)

/-- After any reachable state, a pending reconnect timer never fires earlier
than 5000 ms after the most recent close. -/
theorem wsReach_timer_inv {s : WSState} (h : WSReach s) :
    ∀ u lc, s.timer = some u → s.lastClose = some lc → lc + 5000 ≤ u := by
  induction h with
  | init =>
    intro u lc hu _
    exact absurd hu (by simp [wsInit])
  | step _ hstep ih =>
    cases hstep with
    | opened t h => exact ih
    | errored t h => exact ih
    | closed t h =>
      intro u lc hu hlc
      simp only [Option.some.injEq] at hu hlc
      rw [← hu, ← hlc]
    | fired t h hc =>
      intro u lc hu _
      exact absurd hu (by simp)
    | firedSkip t h hc =>
      intro u lc hu _
      exact absurd hu (by simp)

/-- C9: after every close of the connection the exposed status is
`disconnected` immediately, and from any reachable state a transition into
`connecting` (which can only be the guarded reconnect timer firing) happens
no earlier than 5000 ms after the most recent close. -/
theorem reconnect_delay :
    (∀ (s : WSState) (t : ℚ) (s2 : WSState), WSStep s .closed t s2 →
        s2.status = .disconnected) ∧
      (∀ (s : WSState) (e : WSEvent) (t : ℚ) (s2 : WSState), WSReach s →
        WSStep s e t s2 → s2.status = .connecting → s.status ≠ .connecting →
        ∀ lc, s.lastClose = some lc → lc + 5000 ≤ t) := by
  constructor
  · intro s t s2 h
    cases h with
    | closed t hc => rfl
  · intro s e t s2 hr hstep hs2 hs1 lc hlc
    cases hstep with
    | opened t h => exact absurd hs2 (by simp)
    | errored t h => exact absurd hs2 (by simp)
    | closed t h => exact absurd hs2 (by simp)
    | fired t h hc => exact wsReach_timer_inv hr t lc h hlc
    | firedSkip t h hc => exact absurd hs2 hs1

/-- C9 witness: starting from the startup state, a close at time 10 yields
status `disconnected` at once, and the reconnect transition out of that state
fires at time `10 + 5000`, which is no earlier than 5000 ms after the
close. -/
theorem reconnect_delay_witness :
    (WSState.mk .disconnected true (some ((10:ℚ) + 5000)) (some 10)).status =
        ConnStatus.disconnected ∧
      (10:ℚ) + 5000 ≤ (10:ℚ) + 5000 := by
  refine ⟨reconnect_delay.1 wsInit 10 _ (WSStep.closed wsInit 10 rfl), ?_⟩
  refine reconnect_delay.2 ⟨.disconnected, true, some ((10:ℚ) + 5000), some 10⟩
    .timerFired ((10:ℚ) + 5000) ⟨.connecting, false, none, some 10⟩
    (WSReach.step WSReach.init (WSStep.closed wsInit 10 rfl))
    (WSStep.fired _ _ rfl rfl) rfl ?_ 10 rfl
  intro h
  exact ConnStatus.noConfusion h

end GoQuant
